import Mathlib

/-!
# Verification of `embgen` template discovery, rendering and domain discovery

Shallow embedding of the relevant parts of the `embgen` code generator:

* `embgen/templates.py` — template filename classification (`parse_template_name`)
  and template discovery (`discover_templates`);
* `embgen/core.py` — output filename computation (`render_to_file`),
  multifile rendering (`render_multifile_group`) and the generation driver
  (`parse_and_render`);
* `embgen/models.py` — `BaseConfig.output_filename`, `MultifileGroup`;
* `embgen/discovery.py` — `_discover_domains_in_path`, `discover_domains`,
  `detect_domain`.

Python `dict`s are embedded as association lists with insertion-order
semantics, Python exceptions as `Except`, and the filesystem effects of
`parse_and_render` as an explicit record of directories and files.
-/

namespace Embgen

/-! ## Template filename classification (`templates.py`)

`parse_template_name` strips a `.j2` / `.jinja` engine suffix and then matches
the anchored Python regex `^(.+)\.(\w+)_multi\.(\w+)(?:\.(\w+))?$` against the
base name; on failure it falls back to `base.rsplit(".", 1)`.  The regex is
embedded as a deterministic backtracking matcher over `List Char`: each
quantified piece is tried greedily (longest candidate first), exactly as the
Python `re` engine resolves this pattern.  `\w` is modelled for ASCII
(`[A-Za-z0-9_]`), and `.` in `(.+)` excludes the newline character. -/

/-- ASCII word character, the inputs' fragment of Python `\w`. -/
def isWordChar (c : Char) : Bool :=
  c.isAlphanum || c == '_'

/-- Maximal run of word characters at the head of the list, and the rest. -/
def wordSplit : List Char → List Char × List Char
  | [] => ([], [])
  | c :: cs =>
    if isWordChar c then
      let (w, r) := wordSplit cs
      (c :: w, r)
    else
      ([], c :: cs)

/-- Matcher for the regex tail `(\w+)(?:\.(\w+))?$`: the output extension and
the optional suffix.  Greedy `\w+` cannot cross a dot, and once the maximal
word run fails no shorter run can succeed, so the matcher is a function. -/
def matchExtSuffix (l : List Char) : Option (String × Option String) :=
  let (w, r) := wordSplit l
  if w.isEmpty then
    none
  else
    match r with
    | [] => some (String.mk w, none)
    | '.' :: r2 =>
      let (w2, r3) := wordSplit r2
      if w2.isEmpty ∨ ¬ r3.isEmpty then none
      else some (String.mk w, some (String.mk w2))
    | _ => none

/-- Matcher for `(\w+)_multi\.` followed by `matchExtSuffix`, i.e. the part of
the multifile regex after `(.+)\.`.  The group name `(\w+)` is greedy with
backtracking: candidate lengths are tried longest first. -/
def matchGroupMid (l : List Char) : Option (String × String × Option String) :=
  let (w, _) := wordSplit l
  (List.range w.length).findSome? (fun j =>
    let k := w.length - j
    let rest := l.drop k
    if rest.take 7 = "_multi.".data then
      match matchExtSuffix (rest.drop 7) with
      | some (e, s) => some (String.mk (l.take k), e, s)
      | none => none
    else none)

/-- Matcher for the whole anchored multifile regex
`^(.+)\.(\w+)_multi\.(\w+)(?:\.(\w+))?$`.  The leading `(.+)` is greedy, so
the positions of the following literal dot are tried rightmost first; `.`
does not match a newline. -/
def matchMultiName (l : List Char) : Option (String × String × Option String) :=
  (List.range l.length).findSome? (fun j =>
    let i := l.length - 1 - j
    if h : i < l.length then
      if 1 ≤ i ∧ l.get ⟨i, h⟩ = '.' ∧ '\n' ∉ l.take i then
        matchGroupMid (l.drop (i + 1))
      else none
    else none)

/-- `base.rsplit(".", 1)` when the separator occurs: the text before the last
dot and the text after it. -/
def rsplitDot : List Char → Option (List Char × List Char)
  | [] => none
  | c :: cs =>
    match rsplitDot cs with
    | some (b, a) => some (c :: b, a)
    | none => if c = '.' then some ([], cs) else none

/-- Classification of the base name (engine suffix already removed): first the
multifile regex, then the single-file fallback `base.rsplit(".", 1)`. -/
def parseBase (base : String) : Option String × String × Option String :=
  match matchMultiName base.data with
  | some (g, e, s) => (some g, e, s)
  | none =>
    match rsplitDot base.data with
    | some (_, ext) => (none, String.mk ext, none)
    | none => (none, "", none)

/-- `s.endsWith suf` on the underlying character lists. -/
def endsWithChars (s suf : List Char) : Bool :=
  suf.isSuffixOf s

/-- `s[:-n]` on the underlying character list: drop the last `n` characters. -/
def dropRightChars (s : List Char) (n : Nat) : List Char :=
  s.take (s.length - n)

/-- `parse_template_name` from `templates.py`: strip `.j2`/`.jinja`, then
classify; identifiers without a recognized engine suffix yield `(none, "", none)`. -/
def parse_template_name (filename : String) : Option String × String × Option String :=
  let l := filename.data
  if endsWithChars l ".j2".data then
    parseBase (String.mk (dropRightChars l 3))
  else if endsWithChars l ".jinja".data then
    parseBase (String.mk (dropRightChars l 6))
  else
    (none, "", none)

/-! ## Python dictionaries

Insertion-ordered association lists.  `dictInsert` is `d[k] = v` (replace in
place if the key exists, else append); `dictUpdate` is `d1.update(d2)`
(existing keys keep their position and take `d2`'s value, new keys are
appended in `d2`'s order). -/

/-- A Python `dict` keyed by strings: an insertion-ordered association list. -/
abbrev PyDict (α : Type) := List (String × α)

/-- `d[k] = v`. -/
def dictInsert {α : Type} (d : PyDict α) (k : String) (v : α) : PyDict α :=
  if (d.lookup k).isSome then
    d.map (fun kv => cond (kv.1 == k) (k, v) kv)
  else
    d ++ [(k, v)]

/-- `d1.update(d2)`. -/
def dictUpdate {α : Type} (d1 d2 : PyDict α) : PyDict α :=
  d1.map (fun kv =>
    match d2.lookup kv.1 with
    | some v => (kv.1, v)
    | none => kv)
  ++ d2.filter (fun kv => (d1.lookup kv.1).isNone)

/-! ## Template discovery (`discover_templates`, `models.py` dataclasses) -/

/-- `TemplateInfo` from `models.py`. -/
structure TemplateInfo where
  filename : String
  output_ext : String
  suffix : Option String
  deriving DecidableEq

/-- `MultifileGroup` from `models.py`. -/
structure MultifileGroup where
  group_name : String
  description : String
  templates : List TemplateInfo
  deriving DecidableEq

/-- `MultifileGroup.output_extensions`. -/
def MultifileGroup.output_extensions (g : MultifileGroup) : List String :=
  g.templates.map (fun t => t.output_ext)

/-- The `FILE_TYPES` table from `templates.py`. -/
def FILE_TYPES : PyDict String :=
  [("md", "Markdown"), ("py", "Python"), ("yml", "YAML"), ("json", "JSON"),
   ("tex", "LaTeX"), ("typ", "Typst"), ("h", "C Header"), ("c", "C Source"),
   ("rs", "Rust"), ("txt", "Text"), ("html", "HTML"), ("sv", "SystemVerilog"),
   ("v", "Verilog"), ("vhd", "VHDL")]

/-- `file_type`: `FILE_TYPES.get(extension, "Unknown")`. -/
def file_type (extension : String) : String :=
  (FILE_TYPES.lookup extension).getD "Unknown"

/-- `group_name.upper()` (ASCII). -/
def upperChars (l : List Char) : List Char :=
  l.map Char.toUpper

/-- The Python sort key `(t.output_ext, t.suffix or "")` compared as tuples,
as a Boolean `≤`. -/
def templateKeyLE (a b : TemplateInfo) : Bool :=
  decide (a.output_ext < b.output_ext) ||
    (a.output_ext == b.output_ext && decide (a.suffix.getD "" ≤ b.suffix.getD ""))

/-- Stable insertion: the new element goes after every element whose key is
`≤` its own, as Python's stable `list.sort` keeps ties in encounter order. -/
def insortTemplate (t : TemplateInfo) : List TemplateInfo → List TemplateInfo
  | [] => [t]
  | u :: us => if templateKeyLE u t then u :: insortTemplate t us else t :: u :: us

/-- `templates.sort(key=lambda t: (t.output_ext, t.suffix or ""))`. -/
def sortTemplates (l : List TemplateInfo) : List TemplateInfo :=
  l.foldl (fun acc t => insortTemplate t acc) []

/-- One iteration of the `discover_templates` loop body for a directory entry
named `name`: skip names without a template-engine suffix, record single
templates under their extension, and append multifile descriptors to their
(lazily created) group. -/
def discover_step (acc : PyDict (String × String) × PyDict MultifileGroup)
    (name : String) : PyDict (String × String) × PyDict MultifileGroup :=
  if endsWithChars name.data ".j2".data ∨ endsWithChars name.data ".jinja".data then
    match parse_template_name name with
    | (none, ext, _) => (dictInsert acc.1 ext (file_type ext, name), acc.2)
    | (some g, ext, suffix) =>
      let groups :=
        if (acc.2.lookup g).isSome then acc.2
        else dictInsert acc.2 g ⟨g, String.mk (upperChars g.data) ++ " Multi-file", []⟩
      (acc.1, groups.map (fun kv =>
        cond (kv.1 == g)
          (kv.1, { kv.2 with templates := kv.2.templates ++ [⟨name, ext, suffix⟩] })
          kv))
  else acc

/-- `discover_templates` from `templates.py`, over the list of directory entry
names (in iteration order): the single-template dict and the multifile-group
dict, each group's descriptors sorted by `(output_ext, suffix or "")`. -/
def discover_templates (names : List String) :
    PyDict (String × String) × PyDict MultifileGroup :=
  let acc := names.foldl discover_step ([], [])
  (acc.1, acc.2.map (fun kv =>
    (kv.1, { kv.2 with templates := sortTemplates kv.2.templates })))

/-- Invariant: every descriptor recorded in a multifile group has a filename
that the classifier assigns to some group. -/
def groupsWellTagged (gs : PyDict MultifileGroup) : Prop :=
  ∀ kv ∈ gs, ∀ t ∈ kv.2.templates, (parse_template_name t.filename).1.isSome

/-! ## Rendering (`core.py`)

`render_to_file` computes the output filename from the config's
`output_filename`, the output extension and an optional suffix (Python's
`if suffix:` treats both `None` and `""` as "no suffix");
`render_multifile_group` walks a group's descriptors keeping a per-extension
counter to synthesize numeric suffixes.  File contents and the Jinja
environment are irrelevant to the generated names and are not modelled here
(they appear in the filesystem model below). -/

/-- The filename produced by `render_to_file`:
`<output_filename>_<suffix>.<ext>` when a truthy suffix is given, else
`<output_filename>.<ext>`. -/
def render_filename (out ext : String) (suffix : Option String) : String :=
  match suffix with
  | some s => if s ≠ "" then out ++ "_" ++ s ++ "." ++ ext else out ++ "." ++ ext
  | none => out ++ "." ++ ext

/-- The loop of `render_multifile_group`: `allT` is the group's full
descriptor list (consulted by the `same_ext_templates` filter), `counts` the
`ext_counts` dict (absent keys read as `0`). -/
def renderGroupAux (out : String) (allT : List TemplateInfo) :
    List TemplateInfo → (String → Nat) → List String
  | [], _ => []
  | t :: rest, counts =>
    match t.suffix with
    | some s =>
      render_filename out t.output_ext (some s) ::
        renderGroupAux out allT rest counts
    | none =>
      if counts t.output_ext ≠ 0 then
        render_filename out t.output_ext
            (if 1 < (allT.filter (fun u => u.output_ext == t.output_ext)).length
             then some (Nat.repr (counts t.output_ext + 1)) else none) ::
          renderGroupAux out allT rest
            (fun x => if x = t.output_ext then counts t.output_ext + 1 else counts x)
      else
        render_filename out t.output_ext
            (if 1 < (allT.filter (fun u => u.output_ext == t.output_ext)).length
             then some (Nat.repr 1) else none) ::
          renderGroupAux out allT rest
            (fun x => if x = t.output_ext then 1 else counts x)

/-- `render_multifile_group` from `core.py`, as the list of generated
filenames in render order. -/
def render_multifile_group (out : String) (g : MultifileGroup) : List String :=
  renderGroupAux out g.templates g.templates (fun _ => 0)

/-! ## Configuration model (`models.py` / `domains/__init__.py`) -/

/-- `s.lower()` (ASCII range, which covers the identifiers at issue). -/
def lowerChars (l : List Char) : List Char :=
  l.map Char.toLower

/-- `str.lower()` on a Lean string. -/
def str_lower (s : String) : String :=
  String.mk (lowerChars s.data)

/-- `BaseConfig` from `models.py`: `name : str`, `file : str | None = None`. -/
structure BaseConfig where
  name : String
  file : Option String
  deriving DecidableEq

/-- `BaseConfig.output_filename`: Python `self.file or self.name.lower()`.
The `or` falls through both when `file` is `None` and when it is the empty
string (falsy). -/
def BaseConfig.output_filename (c : BaseConfig) : String :=
  match c.file with
  | some f => if f ≠ "" then f else str_lower c.name
  | none => str_lower c.name

/-! ## The generation driver (`parse_and_render` in `core.py`)

The driver is modelled with its filesystem effects explicit: `parse_result`
stands for the outcome of `parse_yaml(input_path)`, `validate` for
`generator.validate`, `render_content tpl` for
`generator.render(config, env.get_template(tpl))`, and `post` for the list of
filenames returned by `generator.post_generate` (the hook's own file writes
are its responsibility — the core only records the names it reports). -/

/-- A filesystem: the set of existing directories and the files written
(path ↦ content). -/
structure FileSystem where
  dirs : List String
  files : PyDict String
  deriving DecidableEq

/-- `ensure_output_dir`: error when the parent does not exist (or is not a
directory); create the output directory when missing. -/
def ensure_output_dir (fs : FileSystem) (parent outdir : String) :
    Except String FileSystem :=
  if parent ∈ fs.dirs then
    if outdir ∈ fs.dirs then .ok fs
    else .ok { fs with dirs := outdir :: fs.dirs }
  else .error ("Output directory " ++ parent ++ " does not exist")

/-- `open(output_file, "w")` followed by `write`: create or overwrite. -/
def writeFile (fs : FileSystem) (path content : String) : FileSystem :=
  { fs with files := dictInsert fs.files path content }

/-- Body of the single-template loop: render and write the file, record the
filename, add the extension to `generated_extensions`. -/
def singleStep (out outdir : String) (render_content : String → String)
    (acc : FileSystem × List String × Finset String) (p : String × String) :
    FileSystem × List String × Finset String :=
  (writeFile acc.1 (outdir ++ "/" ++ render_filename out p.1 none)
      (render_content p.2),
   acc.2.1 ++ [render_filename out p.1 none],
   insert p.1 acc.2.2)

/-- Body of the multifile loop: render the whole group, record its filenames,
add all the group's output extensions. -/
def groupStep (out outdir : String) (render_content : String → String)
    (acc : FileSystem × List String × Finset String)
    (p : String × MultifileGroup) :
    FileSystem × List String × Finset String :=
  ((List.zip (render_multifile_group out p.2)
      (p.2.templates.map (fun t => render_content t.filename))).foldl
    (fun fsa nc => writeFile fsa (outdir ++ "/" ++ nc.1) nc.2) acc.1,
   acc.2.1 ++ render_multifile_group out p.2,
   acc.2.2 ∪ p.2.output_extensions.toFinset)

/-- The set of extensions actually generated: the single-template extensions
plus every output extension of every rendered multifile group. -/
def rendered_extensions (template_types : List (String × String))
    (multifile_groups : List (String × MultifileGroup)) : Finset String :=
  multifile_groups.foldl (fun s p => s ∪ p.2.output_extensions.toFinset)
    (template_types.foldl (fun s p => insert p.1 s) ∅)

/-- `parse_and_render` from `core.py`: parse, validate, ensure the output
directory, render singles then multifile groups, then run the post-generate
hook once with the generated-extensions set and append the names it
returns. -/
def parse_and_render {D : Type}
    (fs : FileSystem)
    (parse_result : Except String D)
    (validate : D → Except String BaseConfig)
    (gname : String)
    (parent outdir : String)
    (render_content : String → String)
    (template_types : List (String × String))
    (multifile_groups : List (String × MultifileGroup))
    (post : Finset String → List String) :
    FileSystem × Except String (List String) :=
  match parse_result with
  | .error e => (fs, .error e)
  | .ok data =>
    match validate data with
    | .error _ => (fs, .error ("Failed to validate " ++ gname))
    | .ok config =>
      match ensure_output_dir fs parent outdir with
      | .error e => (fs, .error e)
      | .ok fs1 =>
        let out := config.output_filename
        let step1 := template_types.foldl
          (singleStep out outdir render_content) (fs1, [], ∅)
        let step2 := multifile_groups.foldl
          (groupStep out outdir render_content) step1
        (step2.1, .ok (step2.2.1 ++ post step2.2.2))

/-! ## Domain discovery (`discovery.py`)

A domain unit is abstracted as a `DirItem`: whether the candidate is a
directory containing `__init__.py`, its directory name, and the outcome of
loading it — an exception, a module without a `generator` attribute (this
also covers `spec_from_file_location` returning no loader), or a generator
instance.  The YAML document type is a parameter `D`; a generator's `detect`
may itself raise, which is modelled with `Except`. -/

/-- A domain generator as seen by discovery: registry key `name`,
`description`, and the `detect` predicate (which may raise). -/
structure DomainGenerator (D : Type) where
  name : String
  description : String
  detect : D → Except String Bool

/-- A candidate entry of a domains directory. -/
structure DirItem (D : Type) where
  is_dir : Bool
  has_init : Bool
  item_name : String
  load : Except String (Option (DomainGenerator D))

/-- `s.startswith(p)`. -/
def startsWithChars (s p : List Char) : Bool :=
  p.isPrefixOf s

/-- One iteration of the `_discover_domains_in_path` loop: skip non-packages
and names starting with `_`; a load failure is caught and the candidate
skipped; a loaded module without a `generator` attribute contributes
nothing; otherwise `domains[generator.name] = generator`. -/
def discoverStep {D : Type} (doms : PyDict (DomainGenerator D))
    (item : DirItem D) : PyDict (DomainGenerator D) :=
  if ¬ (item.is_dir && item.has_init) then doms
  else if startsWithChars item.item_name.data "_".data then doms
  else
    match item.load with
    | .error _ => doms
    | .ok none => doms
    | .ok (some g) => dictInsert doms g.name g

/-- `_discover_domains_in_path` from `discovery.py`. -/
def discover_domains_in_path {D : Type} (items : List (DirItem D)) :
    PyDict (DomainGenerator D) :=
  items.foldl discoverStep []

/-- Python truthiness of the `extra_domains_dir` argument in its
string-or-`None` form: `None` and `""` are falsy. -/
def truthyOptStr : Option String → Bool
  | some s => !(s == "")
  | none => false

/-- `discover_domains` from `discovery.py`: built-ins first, then — when an
extra location is given as argument, or via the `EMBGEN_DOMAINS_DIR`
environment variable when the argument is absent — the user domains, merged
with `dict.update` so user domains override built-ins of the same name.
`user_items_at p` stands for listing the user directory `p`. -/
def discover_domains {D : Type} (builtin_items : List (DirItem D))
    (extra_domains_dir : Option String) (env_domains_dir : Option String)
    (user_items_at : String → List (DirItem D)) : PyDict (DomainGenerator D) :=
  let domains := discover_domains_in_path builtin_items
  let user_domains_path : Option String :=
    if truthyOptStr extra_domains_dir then extra_domains_dir
    else env_domains_dir
  match user_domains_path with
  | some p => dictUpdate domains (discover_domains_in_path (user_items_at p))
  | none => domains

/-- The `.values()` view of the discovered mapping, in insertion order. -/
def discovered_generators {D : Type} (builtin_items : List (DirItem D))
    (extra_domains_dir : Option String) (env_domains_dir : Option String)
    (user_items_at : String → List (DirItem D)) : List (DomainGenerator D) :=
  (discover_domains builtin_items extra_domains_dir env_domains_dir
    user_items_at).map Prod.snd

/-- The loop of `detect_domain`: first generator whose `detect` returns true;
an exception in `detect` propagates. -/
def detect_domain_list {D : Type} (doms : List (DomainGenerator D)) (data : D) :
    Except String (Option (DomainGenerator D)) :=
  match doms with
  | [] => .ok none
  | g :: rest =>
    match g.detect data with
    | .error e => .error e
    | .ok true => .ok (some g)
    | .ok false => detect_domain_list rest data

/-- `detect_domain` from `discovery.py`. -/
def detect_domain {D : Type} (data : D) (builtin_items : List (DirItem D))
    (extra_domains_dir : Option String) (env_domains_dir : Option String)
    (user_items_at : String → List (DirItem D)) :
    Except String (Option (DomainGenerator D)) :=
  detect_domain_list
    (discovered_generators builtin_items extra_domains_dir env_domains_dir
      user_items_at) data

/-! ## Theorems -/

theorem lookup_append {α : Type} (l1 l2 : PyDict α) (k : String) :
    (l1 ++ l2).lookup k = ((l1.lookup k).or (l2.lookup k)) := by
  induction l1 with
  | nil => simp
  | cons hd tl ih =>
    by_cases h : k = hd.1
    · simp [List.lookup, h, Option.or]
    · have hbe : (k == hd.1) = false := beq_false_of_ne h
      simp [List.lookup, hbe, ih]

theorem lookup_map_replace {α : Type} (d : PyDict α) (k k' : String) (v : α) :
    (d.map (fun kv => cond (kv.1 == k) (k, v) kv)).lookup k' =
      if k' = k then (d.lookup k).map (fun _ => v) else d.lookup k' := by
  induction d with
  | nil => by_cases h : k' = k <;> simp [h]
  | cons hd tl ih =>
    by_cases ha : hd.1 = k
    · have hbe : (hd.1 == k) = true := beq_iff_eq.mpr ha
      by_cases h' : k' = k
      · subst h'
        simp [List.lookup, hbe, ha]
      · have hbe2 : (k' == k) = false := beq_false_of_ne h'
        have hbe3 : (k' == hd.1) = false := beq_false_of_ne (fun he => h' (he.trans ha))
        simp [List.lookup, hbe, hbe2, hbe3, ih, h']
    · have hbe : (hd.1 == k) = false := beq_false_of_ne ha
      by_cases h2 : k' = hd.1
      · have hne : k' ≠ k := fun he => ha (h2.symm.trans he)
        have hbe2 : (k' == hd.1) = true := beq_iff_eq.mpr h2
        simp [List.lookup, hbe, hbe2, hne]
      · have hbe2 : (k' == hd.1) = false := beq_false_of_ne h2
        by_cases h' : k' = k
        · subst h'
          simp [List.lookup, hbe, hbe2, ih]
        · simp [List.lookup, hbe, hbe2, ih, h']

theorem lookup_dictInsert_self {α : Type} (d : PyDict α) (k : String) (v : α) :
    (dictInsert d k v).lookup k = some v := by
  unfold dictInsert
  cases hd : d.lookup k with
  | some w =>
    simp only [hd, Option.isSome_some, if_true]
    rw [lookup_map_replace]
    simp [hd]
  | none =>
    simp only [hd, Option.isSome_none, Bool.false_eq_true, if_false]
    rw [lookup_append]
    simp [hd, List.lookup, Option.or]

theorem lookup_dictInsert_other {α : Type} (d : PyDict α) (k k' : String) (v : α)
    (hne : k' ≠ k) : (dictInsert d k v).lookup k' = d.lookup k' := by
  unfold dictInsert
  cases hd : d.lookup k with
  | some w =>
    simp only [hd, Option.isSome_some, if_true]
    rw [lookup_map_replace]
    simp [hne]
  | none =>
    simp only [hd, Option.isSome_none, Bool.false_eq_true, if_false]
    rw [lookup_append]
    have hbe : (k' == k) = false := beq_false_of_ne hne
    cases h' : d.lookup k' with
    | none => simp [List.lookup, hbe, Option.or]
    | some w => simp [Option.or]

theorem lookup_dictInsert_isSome {α : Type} (d : PyDict α) (k k' : String) (v : α)
    (h : (d.lookup k').isSome) : ((dictInsert d k v).lookup k').isSome := by
  by_cases hk : k' = k
  · subst hk; rw [lookup_dictInsert_self]; rfl
  · rw [lookup_dictInsert_other _ _ _ _ hk]; exact h

theorem lookup_map_override {α : Type} (d1 d2 : PyDict α) (k : String) :
    (d1.map (fun kv =>
      match d2.lookup kv.1 with
      | some v => (kv.1, v)
      | none => kv)).lookup k =
      (d1.lookup k).map (fun v => (d2.lookup k).getD v) := by
  induction d1 with
  | nil => simp
  | cons hd tl ih =>
    by_cases hk : k = hd.1
    · subst hk
      cases h2 : d2.lookup hd.1 with
      | none => simp [List.lookup, h2]
      | some w => simp [List.lookup, h2]
    · have hbe : (k == hd.1) = false := beq_false_of_ne hk
      cases h2 : d2.lookup hd.1 with
      | none => simp [List.lookup, h2, hbe, ih]
      | some w => simp [List.lookup, h2, hbe, ih]

theorem lookup_filter_new {α : Type} (d1 d2 : PyDict α) (k : String) :
    (d2.filter (fun kv => (d1.lookup kv.1).isNone)).lookup k =
      if (d1.lookup k).isSome then none else d2.lookup k := by
  induction d2 with
  | nil => by_cases h : (d1.lookup k).isSome <;> simp [h]
  | cons hd tl ih =>
    by_cases hk : k = hd.1
    · subst hk
      cases h1 : d1.lookup hd.1 with
      | none => simp [List.filter, List.lookup, h1]
      | some w => simp [List.filter, List.lookup, h1, ih]
    · have hbe : (k == hd.1) = false := beq_false_of_ne hk
      cases h1 : d1.lookup hd.1 with
      | none => simp [List.filter, List.lookup, h1, hbe, ih]
      | some w => simp [List.filter, List.lookup, h1, hbe, ih]

theorem lookup_dictUpdate {α : Type} (d1 d2 : PyDict α) (k : String) :
    (dictUpdate d1 d2).lookup k =
      match d1.lookup k with
      | some v => some ((d2.lookup k).getD v)
      | none => d2.lookup k := by
  unfold dictUpdate
  rw [lookup_append, lookup_map_override, lookup_filter_new]
  cases h1 : d1.lookup k with
  | none => simp [Option.or]
  | some v => simp [Option.or]

/-- Keys of `d1.update(d2)`: `d1`'s keys in place, then `d2`'s new keys. -/
theorem keys_dictUpdate {α : Type} (d1 d2 : PyDict α) :
    (dictUpdate d1 d2).map Prod.fst =
      d1.map Prod.fst ++
        (d2.filter (fun kv => (d1.lookup kv.1).isNone)).map Prod.fst := by
  unfold dictUpdate
  rw [List.map_append]
  congr 1
  induction d1 with
  | nil => rfl
  | cons hd tl ih =>
    cases h2 : d2.lookup hd.1 with
    | none => simp [h2, ih]
    | some w => simp [h2, ih]

theorem mem_insortTemplate (u t : TemplateInfo) (l : List TemplateInfo) :
    u ∈ insortTemplate t l ↔ u = t ∨ u ∈ l := by
  induction l with
  | nil => simp [insortTemplate]
  | cons hd tl ih =>
    by_cases h : templateKeyLE hd t
    · simp only [insortTemplate, if_pos h, List.mem_cons, ih]
      tauto
    · simp only [insortTemplate, if_neg h, List.mem_cons]

theorem mem_sortTemplates (u : TemplateInfo) (l : List TemplateInfo)
    (h : u ∈ sortTemplates l) : u ∈ l := by
  unfold sortTemplates at h
  suffices hgen : ∀ acc, u ∈ List.foldl (fun acc t => insortTemplate t acc) acc l →
      u ∈ acc ∨ u ∈ l by
    rcases hgen [] h with h' | h'
    · simp at h'
    · exact h'
  clear h
  induction l with
  | nil => intro acc h; exact Or.inl h
  | cons hd tl ih =>
    intro acc h
    rcases ih (insortTemplate hd acc) h with h' | h'
    · rcases (mem_insortTemplate u hd acc).mp h' with h2 | h2
      · exact Or.inr (by simp [h2])
      · exact Or.inl h2
    · exact Or.inr (List.mem_cons_of_mem _ h')

theorem mem_dictInsert {α : Type} (d : PyDict α) (k : String) (v : α)
    (kv : String × α) (h : kv ∈ dictInsert d k v) : kv = (k, v) ∨ kv ∈ d := by
  unfold dictInsert at h
  by_cases hs : (d.lookup k).isSome
  · rw [if_pos hs] at h
    obtain ⟨kv₀, hkv₀, heq⟩ := List.mem_map.mp h
    by_cases hb : kv₀.1 == k
    · rw [hb] at heq
      exact Or.inl heq.symm
    · rw [Bool.not_eq_true] at hb
      rw [hb] at heq
      exact Or.inr (heq ▸ hkv₀)
  · rw [if_neg hs] at h
    rcases List.mem_append.mp h with h' | h'
    · exact Or.inr h'
    · simp at h'
      exact Or.inl (by simp [h'])

theorem file_type_empty : file_type "" = "Unknown" := by decide

theorem discover_step_keeps_unknown
    (acc : PyDict (String × String) × PyDict MultifileGroup) (n : String)
    (h : ∃ fn, acc.1.lookup "" = some ("Unknown", fn)) :
    ∃ fn, (discover_step acc n).1.lookup "" = some ("Unknown", fn) := by
  unfold discover_step
  split
  · split
    next ext sfx heq =>
      by_cases hext : ext = ""
      · subst hext
        exact ⟨n, by rw [lookup_dictInsert_self, file_type_empty]⟩
      · obtain ⟨fn, hfn⟩ := h
        exact ⟨fn, by
          rw [lookup_dictInsert_other _ _ _ _ (fun he => hext he.symm)]
          exact hfn⟩
    next g ext sfx heq => exact h
  · exact h

theorem discover_step_sets_unknown
    (acc : PyDict (String × String) × PyDict MultifileGroup) (n : String)
    (hp : parse_template_name n = (none, "", none))
    (heng : endsWithChars n.data ".j2".data = true ∨
      endsWithChars n.data ".jinja".data = true) :
    ∃ fn, (discover_step acc n).1.lookup "" = some ("Unknown", fn) := by
  unfold discover_step
  rw [if_pos heng, hp]
  exact ⟨n, by rw [lookup_dictInsert_self, file_type_empty]⟩

theorem discover_step_groups_tagged
    (acc : PyDict (String × String) × PyDict MultifileGroup) (n : String)
    (h : groupsWellTagged acc.2) :
    groupsWellTagged (discover_step acc n).2 := by
  unfold discover_step
  split
  · split
    next ext sfx heq => exact h
    next g ext sfx heq =>
      intro kv hkv t ht
      obtain ⟨kv₀, hkv₀, heq₀⟩ := List.mem_map.mp hkv
      have hkv₀mem : kv₀ = (g, ⟨g, String.mk (upperChars g.data) ++ " Multi-file", []⟩) ∨
          kv₀ ∈ acc.2 := by
        by_cases hs : (acc.2.lookup g).isSome
        · rw [if_pos hs] at hkv₀
          exact Or.inr hkv₀
        · rw [if_neg hs] at hkv₀
          exact mem_dictInsert _ _ _ _ hkv₀
      by_cases hb : kv₀.1 == g
      · rw [hb] at heq₀
        subst heq₀
        simp only at ht
        rcases List.mem_append.mp ht with h' | h'
        · rcases hkv₀mem with h0 | h0
          · rw [h0] at h'
            simp at h'
          · exact h kv₀ h0 t h'
        · simp at h'
          rw [h']
          simp [heq]
      · rw [Bool.not_eq_true] at hb
        rw [hb] at heq₀
        subst heq₀
        rcases hkv₀mem with h0 | h0
        · rw [h0] at ht
          simp at ht
        · exact h kv₀ h0 t ht
  · exact h

theorem foldl_keeps_unknown (l : List String)
    (acc : PyDict (String × String) × PyDict MultifileGroup)
    (h : ∃ fn, acc.1.lookup "" = some ("Unknown", fn)) :
    ∃ fn, (List.foldl discover_step acc l).1.lookup "" = some ("Unknown", fn) := by
  induction l generalizing acc with
  | nil => exact h
  | cons hd tl ih => exact ih _ (discover_step_keeps_unknown acc hd h)

theorem foldl_groups_tagged (l : List String)
    (acc : PyDict (String × String) × PyDict MultifileGroup)
    (h : groupsWellTagged acc.2) :
    groupsWellTagged (List.foldl discover_step acc l).2 := by
  induction l generalizing acc with
  | nil => exact h
  | cons hd tl ih => exact ih _ (discover_step_groups_tagged acc hd h)

/-- C3 (counterexample): the identifier `template.j2` ends with a recognized
template-engine suffix but matches neither the multifile nor the single-file
grammar, yet `discover_templates` does not ignore it: the discovery result
for the directory listing `["template.j2"]` records it among the single
templates, under the empty-string extension key, with the generic "Unknown"
label (while indeed no multifile group is created). -/
theorem discover_templates_malformed_recorded :
    ((discover_templates ["template.j2"]).1).lookup "" =
      some ("Unknown", "template.j2") ∧
    (discover_templates ["template.j2"]).1 = [("", ("Unknown", "template.j2"))] ∧
    (discover_templates ["template.j2"]).2 = [] := by
  refine ⟨?_, ?_, ?_⟩ <;> decide

/-- C3 (amended): a directory entry that ends with a template-engine suffix
but matches neither grammar (`parse_template_name` yields `(none, "", none)`)
is not dropped: `discover_templates` records it among the single templates
under the empty-string extension key with the "Unknown" label (later such
entries overwrite earlier ones); it never appears in any multifile group, and
no error is raised. -/
theorem discover_templates_malformed_amended
    (names : List String) (name : String)
    (hmem : name ∈ names)
    (heng : endsWithChars name.data ".j2".data = true ∨
      endsWithChars name.data ".jinja".data = true)
    (hp : parse_template_name name = (none, "", none)) :
    (∃ fn, ((discover_templates names).1).lookup "" = some ("Unknown", fn)) ∧
    ∀ kv ∈ (discover_templates names).2, ∀ t ∈ kv.2.templates,
      t.filename ≠ name := by
  obtain ⟨l1, l2, rfl⟩ := List.append_of_mem hmem
  constructor
  · unfold discover_templates
    simp only [List.foldl_append, List.foldl_cons]
    exact foldl_keeps_unknown l2 _ (discover_step_sets_unknown _ _ hp heng)
  · intro kv hkv t ht heq
    have htag : groupsWellTagged
        (List.foldl discover_step ([], []) (l1 ++ name :: l2)).2 :=
      foldl_groups_tagged _ _ (by intro kv hkv; simp at hkv)
    unfold discover_templates at hkv
    simp only at hkv
    obtain ⟨kv₀, hkv₀, heq₀⟩ := List.mem_map.mp hkv
    subst heq₀
    simp only at ht
    have ht' : t ∈ kv₀.2.templates := mem_sortTemplates _ _ ht
    have hsome := htag kv₀ hkv₀ t ht'
    rw [heq, hp] at hsome
    simp at hsome

/-- C3 witness: the amended statement instantiated at the directory listing
`["template.j2"]`. -/
theorem discover_templates_malformed_amended_witness :
    (∃ fn, ((discover_templates ["template.j2"]).1).lookup "" =
      some ("Unknown", fn)) ∧
    ∀ kv ∈ (discover_templates ["template.j2"]).2, ∀ t ∈ kv.2.templates,
      t.filename ≠ "template.j2" :=
  discover_templates_malformed_amended ["template.j2"] "template.j2"
    (by simp) (by decide) (by decide)

theorem toDigitsCore_length_le (b : Nat) :
    ∀ (f n : Nat) (acc : List Char),
      acc.length ≤ (Nat.toDigitsCore b f n acc).length := by
  intro f
  induction f with
  | zero => intro n acc; simp [Nat.toDigitsCore]
  | succ f ih =>
    intro n acc
    simp only [Nat.toDigitsCore]
    by_cases h : n / b = 0
    · simp [h]
    · rw [if_neg h]
      calc acc.length ≤ (Nat.digitChar (n % b) :: acc).length := by simp
        _ ≤ _ := ih _ _

theorem toDigitsCore_length_pos (b : Nat) (f n : Nat) (acc : List Char) :
    acc.length + 1 ≤ (Nat.toDigitsCore b (f + 1) n acc).length := by
  simp only [Nat.toDigitsCore]
  by_cases h : n / b = 0
  · simp [h]
  · rw [if_neg h]
    have := toDigitsCore_length_le b f (n / b) (Nat.digitChar (n % b) :: acc)
    simp at this
    omega

theorem repr_ne_empty (n : Nat) : Nat.repr n ≠ "" := by
  intro h
  have h2 : Nat.toDigits 10 n = [] := by
    have := congrArg String.data h
    simpa [Nat.repr, List.asString] using this
  have h3 := toDigitsCore_length_pos 10 n n []
  rw [show Nat.toDigitsCore 10 (n + 1) n [] = Nat.toDigits 10 n from rfl, h2] at h3
  simp at h3

theorem renderGroupAux_explicit (out : String) (allT : List TemplateInfo) :
    ∀ (ts : List TemplateInfo) (counts : String → Nat) (i : Nat)
      (t : TemplateInfo) (s : String),
      ts[i]? = some t → t.suffix = some s →
      (renderGroupAux out allT ts counts)[i]? =
        some (render_filename out t.output_ext (some s)) := by
  intro ts
  induction ts with
  | nil => intro counts i t s h; simp at h
  | cons hd tl ih =>
    intro counts i t s hget hs
    cases i with
    | zero =>
      simp only [List.getElem?_cons_zero, Option.some.injEq] at hget
      subst hget
      rw [renderGroupAux, hs]
      simp
    | succ j =>
      simp only [List.getElem?_cons_succ] at hget
      rw [renderGroupAux]
      cases hsuf : hd.suffix with
      | some s' => simpa using ih _ j t s hget hs
      | none =>
        by_cases hc : counts hd.output_ext ≠ 0
        · rw [if_pos hc]
          simpa using ih _ j t s hget hs
        · rw [if_neg hc]
          simpa using ih _ j t s hget hs

theorem renderGroupAux_one_per_ext (out : String) (allT : List TemplateInfo) :
    ∀ (ts : List TemplateInfo) (counts : String → Nat),
      (∀ t ∈ ts, t.suffix = none) →
      (∀ t ∈ ts, (allT.filter (fun u => u.output_ext == t.output_ext)).length = 1) →
      renderGroupAux out allT ts counts =
        ts.map (fun t => out ++ "." ++ t.output_ext) := by
  intro ts
  induction ts with
  | nil => intro counts _ _; rfl
  | cons hd tl ih =>
    intro counts hall hone
    have hhd : hd.suffix = none := hall hd (by simp)
    have hlen : (allT.filter (fun u => u.output_ext == hd.output_ext)).length = 1 :=
      hone hd (by simp)
    have hmany : ¬ (1 < (allT.filter (fun u => u.output_ext == hd.output_ext)).length) := by
      omega
    simp only [renderGroupAux, hhd, if_neg hmany, List.map_cons]
    by_cases hc : counts hd.output_ext ≠ 0
    · rw [if_pos hc]
      simp only [render_filename]
      congr 1
      exact ih _ (fun t ht => hall t (List.mem_cons_of_mem _ ht))
        (fun t ht => hone t (List.mem_cons_of_mem _ ht))
    · rw [if_neg hc]
      simp only [render_filename]
      congr 1
      exact ih _ (fun t ht => hall t (List.mem_cons_of_mem _ ht))
        (fun t ht => hone t (List.mem_cons_of_mem _ ht))

theorem renderGroupAux_same_ext (out : String) (allT : List TemplateInfo)
    (e : String)
    (hmany : 1 < (allT.filter (fun u => u.output_ext == e)).length) :
    ∀ (ts : List TemplateInfo) (counts : String → Nat),
      (∀ t ∈ ts, t.suffix = none ∧ t.output_ext = e) →
      renderGroupAux out allT ts counts =
        (List.range ts.length).map
          (fun i => out ++ "_" ++ Nat.repr (counts e + i + 1) ++ "." ++ e) := by
  intro ts
  induction ts with
  | nil => intro counts _; rfl
  | cons hd tl ih =>
    intro counts hall
    obtain ⟨hsuf, hext⟩ := hall hd (by simp)
    have htl : ∀ t ∈ tl, t.suffix = none ∧ t.output_ext = e :=
      fun t ht => hall t (List.mem_cons_of_mem _ ht)
    have hrepr : Nat.repr (counts e + 1) ≠ "" := repr_ne_empty _
    simp only [renderGroupAux, hsuf, hext, if_pos hmany]
    by_cases hc : counts e ≠ 0
    · rw [if_pos hc]
      rw [ih _ htl]
      rw [List.length_cons, List.range_succ_eq_map, List.map_cons, List.map_map]
      congr 1
      · simp [render_filename, hrepr]
      · apply List.map_congr_left
        intro i _
        simp [Function.comp, Nat.add_assoc, Nat.add_comm, Nat.add_left_comm]
    · rw [if_neg hc]
      push_neg at hc
      rw [ih _ htl]
      rw [List.length_cons, List.range_succ_eq_map, List.map_cons, List.map_map]
      congr 1
      · simp [render_filename, repr_ne_empty, hc]
      · apply List.map_congr_left
        intro i _
        simp [Function.comp, hc, Nat.add_assoc, Nat.add_comm, Nat.add_left_comm]

/-- C2: multifile output naming.  For a group whose explicit suffixes are
non-empty strings (as produced by template discovery, where suffixes match
`\w+`): (a) a descriptor carrying an explicit suffix `s` yields
`<out>_<s>.<ext>`; (b) if the group has exactly one descriptor per output
extension and no explicit suffixes, every generated filename is exactly
`<out>.<ext>`, with no numeric suffix; (c) if all `N > 1` descriptors share
one extension `e` and none has an explicit suffix, the filenames are
`<out>_1.<e>` … `<out>_N.<e>`, numbered sequentially in the group's
descriptor order (which discovery sorts by `(extension, suffix or "")`;
ties keep that order, so this is the sorted order). -/
theorem render_multifile_group_naming (out : String) (g : MultifileGroup)
    (hwf : ∀ t ∈ g.templates, ∀ s, t.suffix = some s → s ≠ "") :
    (∀ (i : Nat) (t : TemplateInfo) (s : String),
      g.templates[i]? = some t → t.suffix = some s →
      (render_multifile_group out g)[i]? =
        some (out ++ "_" ++ s ++ "." ++ t.output_ext)) ∧
    ((∀ t ∈ g.templates, t.suffix = none) →
      (∀ t ∈ g.templates,
        (g.templates.filter (fun u => u.output_ext == t.output_ext)).length = 1) →
      render_multifile_group out g =
        g.templates.map (fun t => out ++ "." ++ t.output_ext)) ∧
    (∀ e : String,
      (∀ t ∈ g.templates, t.suffix = none ∧ t.output_ext = e) →
      1 < g.templates.length →
      render_multifile_group out g =
        (List.range g.templates.length).map
          (fun i => out ++ "_" ++ Nat.repr (i + 1) ++ "." ++ e)) := by
  refine ⟨?_, ?_, ?_⟩
  · intro i t s hget hs
    have hne : s ≠ "" := by
      have hmem : t ∈ g.templates := by
        have := List.getElem?_eq_some_iff.mp hget
        obtain ⟨h, rfl⟩ := this
        exact List.getElem_mem h
      exact hwf t hmem s hs
    have := renderGroupAux_explicit out g.templates g.templates (fun _ => 0) i t s hget hs
    rw [render_multifile_group, this]
    simp [render_filename, hne]
  · intro hall hone
    exact renderGroupAux_one_per_ext out g.templates g.templates _ hall hone
  · intro e hall hlen
    have hfilt : g.templates.filter (fun u => u.output_ext == e) = g.templates := by
      apply List.filter_eq_self.mpr
      intro t ht
      exact beq_iff_eq.mpr (hall t ht).2
    have hmany : 1 < (g.templates.filter (fun u => u.output_ext == e)).length := by
      rw [hfilt]; exact hlen
    have := renderGroupAux_same_ext out g.templates e hmany g.templates (fun _ => 0) hall
    rw [render_multifile_group, this]
    apply List.map_congr_left
    intro i _
    simp

/-- C2 witness: the statement instantiated on a concrete group mixing an
explicit suffix check (part a), a one-descriptor-per-extension group
(part b), and a same-extension suffixless group (part c). -/
theorem render_multifile_group_naming_witness :
    ((render_multifile_group "dev"
        ⟨"sv", "SV Multi-file",
          [⟨"template.sv_multi.sv.1.j2", "sv", some "1"⟩,
           ⟨"template.sv_multi.sv.2.j2", "sv", some "2"⟩]⟩) = ["dev_1.sv", "dev_2.sv"]) ∧
    ((render_multifile_group "dev"
        ⟨"c", "C Multi-file",
          [⟨"template.c_multi.c.j2", "c", none⟩,
           ⟨"template.c_multi.h.j2", "h", none⟩]⟩) = ["dev.c", "dev.h"]) ∧
    ((render_multifile_group "dev"
        ⟨"v", "V Multi-file",
          [⟨"template.v_multi.v.j2", "v", none⟩,
           ⟨"template2.v_multi.v.j2", "v", none⟩]⟩) = ["dev_1.v", "dev_2.v"]) := by
  refine ⟨?_, ?_, ?_⟩
  · have h := (render_multifile_group_naming "dev"
      ⟨"sv", "SV Multi-file",
        [⟨"template.sv_multi.sv.1.j2", "sv", some "1"⟩,
         ⟨"template.sv_multi.sv.2.j2", "sv", some "2"⟩]⟩ (by decide)).1
    have h0 := h 0 ⟨"template.sv_multi.sv.1.j2", "sv", some "1"⟩ "1" (by decide) (by decide)
    have h1 := h 1 ⟨"template.sv_multi.sv.2.j2", "sv", some "2"⟩ "2" (by decide) (by decide)
    decide
  · exact (render_multifile_group_naming "dev"
      ⟨"c", "C Multi-file",
        [⟨"template.c_multi.c.j2", "c", none⟩,
         ⟨"template.c_multi.h.j2", "h", none⟩]⟩ (by decide)).2.1
      (by decide) (by decide)
  · have h := (render_multifile_group_naming "dev"
      ⟨"v", "V Multi-file",
        [⟨"template.v_multi.v.j2", "v", none⟩,
         ⟨"template2.v_multi.v.j2", "v", none⟩]⟩ (by decide)).2.2
      "v" (by decide) (by decide)
    rw [h]
    decide

/-- C6 (counterexample): with `name = "ABC"` and `file` present but equal to
the empty string, `output_filename` is `"abc"` — the lowercased name — and
not the `file` value, contradicting "when `file` is present, `output_filename`
equals `file` exactly". -/
theorem output_filename_empty_file_counterexample :
    BaseConfig.output_filename ⟨"ABC", some ""⟩ = "abc" ∧
    BaseConfig.output_filename ⟨"ABC", some ""⟩ ≠ "" := by
  constructor <;> decide

/-- C6 (amended): with a `name` field and no `file` field, `output_filename`
is `lowercase(name)`; when `file` is present and non-empty, `output_filename`
equals `file` exactly, with no case change; when `file` is present but empty,
it falls back to `lowercase(name)`. -/
theorem output_filename_amended :
    (∀ n : String, BaseConfig.output_filename ⟨n, none⟩ = str_lower n) ∧
    (∀ n f : String, f ≠ "" → BaseConfig.output_filename ⟨n, some f⟩ = f) ∧
    (∀ n : String, BaseConfig.output_filename ⟨n, some ""⟩ = str_lower n) := by
  refine ⟨fun n => rfl, fun n f hf => ?_, fun n => rfl⟩
  simp [BaseConfig.output_filename, hf]

/-- C6 witness: the amended statement instantiated at concrete configs. -/
theorem output_filename_amended_witness :
    BaseConfig.output_filename ⟨"Name", some "Custom.File"⟩ = "Custom.File" :=
  output_filename_amended.2.1 "Name" "Custom.File" (by decide)

theorem foldl_singleStep_names (out outdir : String) (rc : String → String)
    (tt : List (String × String)) :
    ∀ acc : FileSystem × List String × Finset String,
      (tt.foldl (singleStep out outdir rc) acc).2.1 =
        acc.2.1 ++ tt.map (fun p => render_filename out p.1 none) := by
  induction tt with
  | nil => intro acc; simp
  | cons hd tl ih =>
    intro acc
    rw [List.foldl_cons, ih]
    simp [singleStep]

theorem foldl_singleStep_exts (out outdir : String) (rc : String → String)
    (tt : List (String × String)) :
    ∀ acc : FileSystem × List String × Finset String,
      (tt.foldl (singleStep out outdir rc) acc).2.2 =
        tt.foldl (fun s p => insert p.1 s) acc.2.2 := by
  induction tt with
  | nil => intro acc; rfl
  | cons hd tl ih =>
    intro acc
    rw [List.foldl_cons, ih]
    rfl

theorem foldl_groupStep_names (out outdir : String) (rc : String → String)
    (gs : List (String × MultifileGroup)) :
    ∀ acc : FileSystem × List String × Finset String,
      (gs.foldl (groupStep out outdir rc) acc).2.1 =
        acc.2.1 ++ gs.flatMap (fun p => render_multifile_group out p.2) := by
  induction gs with
  | nil => intro acc; simp
  | cons hd tl ih =>
    intro acc
    rw [List.foldl_cons, ih]
    simp [groupStep]

theorem foldl_groupStep_exts (out outdir : String) (rc : String → String)
    (gs : List (String × MultifileGroup)) :
    ∀ acc : FileSystem × List String × Finset String,
      (gs.foldl (groupStep out outdir rc) acc).2.2 =
        gs.foldl (fun s p => s ∪ p.2.output_extensions.toFinset) acc.2.2 := by
  induction gs with
  | nil => intro acc; rfl
  | cons hd tl ih =>
    intro acc
    rw [List.foldl_cons, ih]
    rfl

theorem mem_foldl_insert (tt : List (String × String)) :
    ∀ (s0 : Finset String) (x : String),
      x ∈ tt.foldl (fun s p => insert p.1 s) s0 ↔
        x ∈ s0 ∨ ∃ p ∈ tt, p.1 = x := by
  induction tt with
  | nil => intro s0 x; simp
  | cons hd tl ih =>
    intro s0 x
    rw [List.foldl_cons, ih]
    simp [Finset.mem_insert]
    tauto

theorem mem_foldl_union (gs : List (String × MultifileGroup)) :
    ∀ (s0 : Finset String) (x : String),
      x ∈ gs.foldl (fun s p => s ∪ p.2.output_extensions.toFinset) s0 ↔
        x ∈ s0 ∨ ∃ p ∈ gs, x ∈ p.2.output_extensions := by
  induction gs with
  | nil => intro s0 x; simp
  | cons hd tl ih =>
    intro s0 x
    rw [List.foldl_cons, ih]
    simp [Finset.mem_union]
    tauto

/-- C4: on a successful run, `parse_and_render` returns the single-template
filenames in selection order, then the multifile-group filenames in selection
order, then — appended last — exactly the filenames the post-generate hook
returns; the hook appears once, applied to the generated-extensions set,
which contains precisely the extensions of the files actually rendered (the
single-template extensions plus every output extension of every rendered
multifile group). -/
theorem parse_and_render_post_hook {D : Type}
    (fs : FileSystem) (parse_result : Except String D)
    (validate : D → Except String BaseConfig) (gname parent outdir : String)
    (rc : String → String) (tt : List (String × String))
    (gs : List (String × MultifileGroup)) (post : Finset String → List String)
    (d : D) (config : BaseConfig) (fs1 : FileSystem)
    (hp : parse_result = Except.ok d) (hv : validate d = Except.ok config)
    (he : ensure_output_dir fs parent outdir = Except.ok fs1) :
    (parse_and_render fs parse_result validate gname parent outdir rc tt gs
        post).2 =
      Except.ok
        (tt.map (fun p => render_filename config.output_filename p.1 none)
          ++ gs.flatMap
            (fun p => render_multifile_group config.output_filename p.2)
          ++ post (rendered_extensions tt gs)) ∧
    (∀ x : String, x ∈ rendered_extensions tt gs ↔
      (∃ p ∈ tt, p.1 = x) ∨ ∃ p ∈ gs, x ∈ p.2.output_extensions) := by
  constructor
  · rw [hp]
    simp only [parse_and_render, hv, he]
    simp only [foldl_groupStep_names, foldl_groupStep_exts,
      foldl_singleStep_names, foldl_singleStep_exts]
    rw [rendered_extensions, List.append_assoc]
    simp
  · intro x
    rw [rendered_extensions, mem_foldl_union, mem_foldl_insert]
    simp

/-- C4 witness: a run with one single template, one multifile group and a
hook that reports a companion file conditioned on the generated set. -/
theorem parse_and_render_post_hook_witness :
    (parse_and_render ⟨["/work"], []⟩ (Except.ok 0)
        (fun _ => Except.ok ⟨"Dev", none⟩) "commands" "/work" "/work/out"
        (fun _ => "content") [("h", "template.h.j2")]
        [("c", ⟨"c", "C Multi-file",
          [⟨"template.c_multi.c.j2", "c", none⟩,
           ⟨"template.c_multi.h.j2", "h", none⟩]⟩)]
        (fun s => if "c" ∈ s then ["base.c"] else [])).2 =
      Except.ok ["dev.h", "dev.c", "dev.h", "base.c"] ∧
    "c" ∈ rendered_extensions [("h", "template.h.j2")]
        [("c", ⟨"c", "C Multi-file",
          [⟨"template.c_multi.c.j2", "c", none⟩,
           ⟨"template.c_multi.h.j2", "h", none⟩]⟩)] := by
  have h := parse_and_render_post_hook ⟨["/work"], []⟩ (Except.ok 0)
    (fun _ => Except.ok ⟨"Dev", none⟩) "commands" "/work" "/work/out"
    (fun _ => "content") [("h", "template.h.j2")]
    [("c", ⟨"c", "C Multi-file",
      [⟨"template.c_multi.c.j2", "c", none⟩,
       ⟨"template.c_multi.h.j2", "h", none⟩]⟩)]
    (fun s => if "c" ∈ s then ["base.c"] else [])
    0 ⟨"Dev", none⟩ ⟨["/work/out", "/work"], []⟩ rfl rfl rfl
  constructor
  · rw [h.1]
    rfl
  · exact (h.2 "c").mpr (Or.inr ⟨("c", ⟨"c", "C Multi-file",
      [⟨"template.c_multi.c.j2", "c", none⟩,
       ⟨"template.c_multi.h.j2", "h", none⟩]⟩), by simp,
      by simp [MultifileGroup.output_extensions]⟩)

/-- C9: if parsing the input document fails, or the domain's `validate`
rejects it, `parse_and_render` raises and the filesystem is returned
unchanged — the output directory is not created and no file is written,
because `ensure_output_dir` and all rendering run only after validation
succeeds. -/
theorem parse_and_render_fails_clean {D : Type}
    (fs : FileSystem) (parse_result : Except String D)
    (validate : D → Except String BaseConfig) (gname parent outdir : String)
    (rc : String → String) (tt : List (String × String))
    (gs : List (String × MultifileGroup))
    (post : Finset String → List String) :
    (∀ e, parse_result = Except.error e →
      parse_and_render fs parse_result validate gname parent outdir rc tt gs
        post = (fs, Except.error e)) ∧
    (∀ d e, parse_result = Except.ok d → validate d = Except.error e →
      parse_and_render fs parse_result validate gname parent outdir rc tt gs
        post = (fs, Except.error ("Failed to validate " ++ gname))) := by
  constructor
  · intro e hp
    rw [hp]
    simp only [parse_and_render]
  · intro d e hp hv
    rw [hp]
    simp only [parse_and_render, hv]

/-- C9 witness: a failing parse and a failing validation on a concrete
filesystem, which both leave it untouched. -/
theorem parse_and_render_fails_clean_witness :
    parse_and_render ⟨["/work"], []⟩ (Except.error "Failed to load YAML file" :
        Except String Nat)
      (fun _ => Except.ok ⟨"Dev", none⟩) "registers" "/work" "/work/out"
      (fun _ => "") [] [] (fun _ => []) =
      (⟨["/work"], []⟩, Except.error "Failed to load YAML file") ∧
    parse_and_render ⟨["/work"], []⟩ (Except.ok 7)
      (fun _ => (Except.error "missing field" : Except String BaseConfig))
      "registers" "/work" "/work/out" (fun _ => "") [] [] (fun _ => []) =
      (⟨["/work"], []⟩, Except.error "Failed to validate registers") :=
  ⟨(parse_and_render_fails_clean ⟨["/work"], []⟩ _ _ "registers" "/work"
      "/work/out" (fun _ => "") [] [] (fun _ => [])).1
    "Failed to load YAML file" rfl,
   (parse_and_render_fails_clean ⟨["/work"], []⟩ _ _ "registers" "/work"
      "/work/out" (fun _ => "") [] [] (fun _ => [])).2
    7 "missing field" rfl rfl⟩

theorem discoverStep_load_error {D : Type} (doms : PyDict (DomainGenerator D))
    (item : DirItem D) (e : String) (he : item.load = Except.error e) :
    discoverStep doms item = doms := by
  unfold discoverStep
  split
  · rfl
  · split
    · rfl
    · rw [he]

theorem discover_domains_in_path_keeps_key {D : Type}
    (items : List (DirItem D)) (k : String) :
    ∀ doms : PyDict (DomainGenerator D), (doms.lookup k).isSome →
      ((items.foldl discoverStep doms).lookup k).isSome := by
  induction items with
  | nil => intro doms h; exact h
  | cons hd tl ih =>
    intro doms h
    rw [List.foldl_cons]
    apply ih
    unfold discoverStep
    split
    · exact h
    · split
      · exact h
      · split
        · exact h
        · exact h
        · exact lookup_dictInsert_isSome _ _ _ _ h

/-- C8: a candidate whose load raises is skipped with no mapping entry and
no effect on the rest of discovery (the result over
`before ++ [failing] ++ after` equals the result over `before ++ after`),
and every candidate that does load successfully with a `generator` attribute
ends up in the returned mapping under its generator's name. -/
theorem discover_domains_in_path_isolation {D : Type}
    (before after : List (DirItem D)) (bad : DirItem D) (e : String)
    (hbad : bad.load = Except.error e) :
    (discover_domains_in_path (before ++ bad :: after) =
      discover_domains_in_path (before ++ after)) ∧
    (∀ (items : List (DirItem D)) (item : DirItem D) (g : DomainGenerator D),
      item ∈ items → item.is_dir = true → item.has_init = true →
      startsWithChars item.item_name.data "_".data = false →
      item.load = Except.ok (some g) →
      (((discover_domains_in_path items).lookup g.name)).isSome) := by
  constructor
  · unfold discover_domains_in_path
    rw [List.foldl_append, List.foldl_append, List.foldl_cons,
      discoverStep_load_error _ _ _ hbad]
  · intro items item g hmem hdir hinit hus hload
    obtain ⟨l1, l2, rfl⟩ := List.append_of_mem hmem
    unfold discover_domains_in_path
    rw [List.foldl_append, List.foldl_cons]
    apply discover_domains_in_path_keeps_key
    unfold discoverStep
    rw [hdir, hinit]
    simp only [hus, hload, Bool.and_self, not_true, Bool.false_eq_true,
      not_false_iff, if_true, if_false]
    rw [lookup_dictInsert_self]
    rfl

/-- C8 witness: a three-candidate directory whose middle candidate raises on
load; the failure is isolated and the two good candidates are both present. -/
theorem discover_domains_in_path_isolation_witness :
    (discover_domains_in_path (D := Nat)
        ([⟨true, true, "commands", Except.ok (some ⟨"commands", "Commands", fun _ => Except.ok true⟩)⟩]
          ++ ⟨true, true, "broken", Except.error "ImportError"⟩ ::
          [⟨true, true, "registers", Except.ok (some ⟨"registers", "Registers", fun _ => Except.ok false⟩)⟩]) =
      discover_domains_in_path
        ([⟨true, true, "commands", Except.ok (some ⟨"commands", "Commands", fun _ => Except.ok true⟩)⟩]
          ++ [⟨true, true, "registers", Except.ok (some ⟨"registers", "Registers", fun _ => Except.ok false⟩)⟩])) ∧
    ((discover_domains_in_path (D := Nat)
        ([⟨true, true, "commands", Except.ok (some ⟨"commands", "Commands", fun _ => Except.ok true⟩)⟩]
          ++ ⟨true, true, "broken", Except.error "ImportError"⟩ ::
          [⟨true, true, "registers", Except.ok (some ⟨"registers", "Registers", fun _ => Except.ok false⟩)⟩])).lookup
      "registers").isSome := by
  have h := discover_domains_in_path_isolation (D := Nat)
    [⟨true, true, "commands", Except.ok (some ⟨"commands", "Commands", fun _ => Except.ok true⟩)⟩]
    [⟨true, true, "registers", Except.ok (some ⟨"registers", "Registers", fun _ => Except.ok false⟩)⟩]
    ⟨true, true, "broken", Except.error "ImportError"⟩ "ImportError" rfl
  refine ⟨h.1, ?_⟩
  exact h.2 _ ⟨true, true, "registers",
      Except.ok (some ⟨"registers", "Registers", fun _ => Except.ok false⟩)⟩
    ⟨"registers", "Registers", fun _ => Except.ok false⟩
    (by simp) rfl rfl rfl rfl

/-- When the extra location is a non-empty argument, or the environment
variable is set and the argument is absent, `discover_domains` is exactly
`builtins.update(user_domains)`. -/
theorem discover_domains_resolves {D : Type}
    (builtin_items : List (DirItem D)) (extra env : Option String)
    (user_items_at : String → List (DirItem D)) (p : String)
    (hp : (extra = some p ∧ p ≠ "") ∨ (extra = none ∧ env = some p)) :
    discover_domains builtin_items extra env user_items_at =
      dictUpdate (discover_domains_in_path builtin_items)
        (discover_domains_in_path (user_items_at p)) := by
  rcases hp with ⟨he, hne⟩ | ⟨he, henv⟩
  · subst he
    have ht : truthyOptStr (some p) = true := by
      simp [truthyOptStr, hne]
    simp [discover_domains, ht]
  · subst he
    subst henv
    have ht : truthyOptStr none = false := rfl
    simp [discover_domains, ht]

/-- C5: with an extra domains location (explicit non-empty argument, or the
`EMBGEN_DOMAINS_DIR` environment value when the argument is absent), the
domains loaded there are merged into the built-in mapping by overwriting:
every key of the user mapping resolves to the user-supplied instance (hence
its description), and keys absent from it keep the built-in instance — no
partial merge. -/
theorem discover_domains_user_override {D : Type}
    (builtin_items : List (DirItem D)) (extra env : Option String)
    (user_items_at : String → List (DirItem D)) (p : String)
    (hp : (extra = some p ∧ p ≠ "") ∨ (extra = none ∧ env = some p)) :
    (∀ (k : String) (g : DomainGenerator D),
      (discover_domains_in_path (user_items_at p)).lookup k = some g →
      (discover_domains builtin_items extra env user_items_at).lookup k =
        some g) ∧
    (∀ k : String,
      (discover_domains_in_path (user_items_at p)).lookup k = none →
      (discover_domains builtin_items extra env user_items_at).lookup k =
        (discover_domains_in_path builtin_items).lookup k) := by
  have hres := discover_domains_resolves builtin_items extra env user_items_at p hp
  constructor
  · intro k g hk
    rw [hres, lookup_dictUpdate]
    cases hb : (discover_domains_in_path builtin_items).lookup k with
    | none => simp [hk]
    | some v => simp [hk]
  · intro k hk
    rw [hres, lookup_dictUpdate]
    cases hb : (discover_domains_in_path builtin_items).lookup k with
    | none => simp [hk]
    | some v => simp [hk]

/-- C5 witness: a built-in domain `commands` overridden by a user domain of
the same name; the resulting mapping holds the user instance, whose
description is the user's. -/
theorem discover_domains_user_override_witness :
    (discover_domains (D := Nat)
      [⟨true, true, "commands",
        Except.ok (some ⟨"commands", "Built-in commands", fun _ => Except.ok true⟩)⟩]
      (some "/user/domains") none
      (fun _ => [⟨true, true, "commands",
        Except.ok (some ⟨"commands", "User commands", fun _ => Except.ok true⟩)⟩])).lookup
      "commands" =
      some ⟨"commands", "User commands", fun _ => Except.ok true⟩ :=
  (discover_domains_user_override _ _ _ _ "/user/domains"
    (Or.inl ⟨rfl, by decide⟩)).1 "commands" _ rfl

theorem detect_domain_list_some {D : Type} (data : D) :
    ∀ (l : List (DomainGenerator D)) (g : DomainGenerator D),
      detect_domain_list l data = Except.ok (some g) →
      ∃ (i : Nat) (h : i < l.length), l.get ⟨i, h⟩ = g ∧
        g.detect data = Except.ok true ∧
        ∀ (j : Nat) (hj : j < i),
          (l.get ⟨j, Nat.lt_trans hj h⟩).detect data = Except.ok false := by
  intro l
  induction l with
  | nil => intro g h; simp [detect_domain_list] at h
  | cons hd tl ih =>
    intro g h
    rw [detect_domain_list] at h
    cases hd2 : hd.detect data with
    | error e =>
      rw [hd2] at h
      exact absurd h (by simp)
    | ok b =>
      cases b with
      | true =>
        rw [hd2] at h
        have hg : hd = g := by simpa using h
        subst hg
        refine ⟨0, by simp, rfl, hd2, ?_⟩
        intro j hj
        omega
      | false =>
        rw [hd2] at h
        obtain ⟨i, hi, hget, hdet, hprev⟩ := ih g h
        refine ⟨i + 1, by simpa using Nat.succ_lt_succ hi, by simpa using hget,
          hdet, ?_⟩
        intro j hj
        cases j with
        | zero => simpa using hd2
        | succ j' =>
          have hj' : j' < i := by omega
          simpa using hprev j' hj'

theorem detect_domain_list_no_match {D : Type} (data : D) :
    ∀ l : List (DomainGenerator D),
      detect_domain_list l data = Except.ok none ↔
        ∀ g ∈ l, g.detect data = Except.ok false := by
  intro l
  induction l with
  | nil => simp [detect_domain_list]
  | cons hd tl ih =>
    rw [detect_domain_list]
    cases hd2 : hd.detect data with
    | error e =>
      apply iff_of_false
      · simp
      · intro hall
        have h0 := hall hd (List.mem_cons_self hd tl)
        rw [hd2] at h0
        exact absurd h0 (by simp)
    | ok b =>
      cases b with
      | true =>
        apply iff_of_false
        · simp
        · intro hall
          have h0 := hall hd (List.mem_cons_self hd tl)
          rw [hd2] at h0
          exact absurd h0 (by simp)
      | false =>
        rw [ih]
        constructor
        · intro h g hg
          rcases List.mem_cons.mp hg with rfl | hg'
          · exact hd2
          · exact h g hg'
        · intro h g hg
          exact h g (List.mem_cons_of_mem hd hg)

/-- C7: `detect_domain` iterates the discovered domains in insertion order —
the built-ins in their discovery order (values overridden in place by user
domains of the same name), then the user additions in their order — and
returns the first generator whose `detect` returns true; when no generator
matches it returns `none` inside a successful result, not an error. -/
theorem detect_domain_first_match {D : Type} (data : D)
    (builtin_items : List (DirItem D)) (extra env : Option String)
    (user_items_at : String → List (DirItem D)) (p : String)
    (hp : (extra = some p ∧ p ≠ "") ∨ (extra = none ∧ env = some p)) :
    ((discover_domains builtin_items extra env user_items_at).map Prod.fst =
      (discover_domains_in_path builtin_items).map Prod.fst ++
        ((discover_domains_in_path (user_items_at p)).filter
          (fun kv =>
            ((discover_domains_in_path builtin_items).lookup kv.1).isNone)).map
          Prod.fst) ∧
    (∀ g, detect_domain data builtin_items extra env user_items_at =
        Except.ok (some g) →
      ∃ (i : Nat) (h : i < (discovered_generators builtin_items extra env
          user_items_at).length),
        (discovered_generators builtin_items extra env user_items_at).get
          ⟨i, h⟩ = g ∧
        g.detect data = Except.ok true ∧
        ∀ (j : Nat) (hj : j < i),
          ((discovered_generators builtin_items extra env user_items_at).get
            ⟨j, Nat.lt_trans hj h⟩).detect data = Except.ok false) ∧
    (detect_domain data builtin_items extra env user_items_at =
        Except.ok none ↔
      ∀ g ∈ discovered_generators builtin_items extra env user_items_at,
        g.detect data = Except.ok false) := by
  refine ⟨?_, ?_, ?_⟩
  · rw [discover_domains_resolves builtin_items extra env user_items_at p hp]
    exact keys_dictUpdate _ _
  · intro g h
    exact detect_domain_list_some data _ g h
  · exact detect_domain_list_no_match data _

/-- C7 witness: one discovered domain whose predicate rejects the document;
detection returns a successful `none`. -/
theorem detect_domain_first_match_witness :
    detect_domain (D := Nat) 5
      [⟨true, true, "commands",
        Except.ok (some ⟨"commands", "Commands", fun _ => Except.ok false⟩)⟩]
      (some "/user/domains") none (fun _ => []) = Except.ok none := by
  have h := detect_domain_first_match (D := Nat) 5
    [⟨true, true, "commands",
      Except.ok (some ⟨"commands", "Commands", fun _ => Except.ok false⟩)⟩]
    (some "/user/domains") none (fun _ => []) "/user/domains"
    (Or.inl ⟨rfl, by decide⟩)
  apply h.2.2.mpr
  intro g hg
  have hev : discovered_generators (D := Nat)
      [⟨true, true, "commands",
        Except.ok (some ⟨"commands", "Commands", fun _ => Except.ok false⟩)⟩]
      (some "/user/domains") none (fun _ => []) =
      [⟨"commands", "Commands", fun _ => Except.ok false⟩] := rfl
  rw [hev] at hg
  have hg' : g = ⟨"commands", "Commands", fun _ => Except.ok false⟩ := by
    simpa using hg
  subst hg'
  rfl

theorem detect_domain_list_append_error {D : Type} (data : D)
    (g : DomainGenerator D) (e : String)
    (hg : g.detect data = Except.error e) :
    ∀ pre rest : List (DomainGenerator D),
      (∀ d ∈ pre, d.detect data = Except.ok false) →
      detect_domain_list (pre ++ g :: rest) data = Except.error e := by
  intro pre
  induction pre with
  | nil =>
    intro rest _
    rw [List.nil_append, detect_domain_list, hg]
  | cons hd tl ih =>
    intro rest hall
    rw [List.cons_append, detect_domain_list, hall hd (List.mem_cons_self hd tl)]
    exact ih rest (fun d hd2 => hall d (List.mem_cons_of_mem _ hd2))

/-- C10: when a discovered domain's `detect` raises on the document and every
domain before it in iteration order rejected it, `detect_domain` propagates
that exception — whatever domains come after it (they are never consulted) —
and never converts it into a "no match" result. -/
theorem detect_domain_error_propagates {D : Type} (data : D)
    (builtin_items : List (DirItem D)) (extra env : Option String)
    (user_items_at : String → List (DirItem D))
    (pre rest : List (DomainGenerator D)) (g : DomainGenerator D) (e : String)
    (hsplit : discovered_generators builtin_items extra env user_items_at =
      pre ++ g :: rest)
    (hpre : ∀ d ∈ pre, d.detect data = Except.ok false)
    (hg : g.detect data = Except.error e) :
    detect_domain data builtin_items extra env user_items_at =
      Except.error e := by
  unfold detect_domain
  rw [hsplit]
  exact detect_domain_list_append_error data g e hg pre rest hpre

/-- C10 witness: a single discovered domain whose `detect` raises; the
exception surfaces from `detect_domain`, with further (hypothetical) domains
irrelevant. -/
theorem detect_domain_error_propagates_witness :
    detect_domain (D := Nat) 5
      [⟨true, true, "commands",
        Except.ok (some ⟨"commands", "Commands", fun _ => Except.error "boom"⟩)⟩]
      (some "/u") none (fun _ => []) = Except.error "boom" :=
  detect_domain_error_propagates 5 _ _ _ _ [] []
    ⟨"commands", "Commands", fun _ => Except.error "boom"⟩ "boom" rfl
    (by simp) rfl

/-- C1: the template-name classifier on the four spec examples:
`template.h.j2 ↦ (none, "h", none)`, `template.c_multi.h.j2 ↦ (some "c", "h", none)`,
`template.sv_multi.sv.2.j2 ↦ (some "sv", "sv", some "2")`, and `readme.txt`,
which lacks a recognized engine suffix, `↦ (none, "", none)`. -/
theorem parse_template_name_spec_examples :
    parse_template_name "template.h.j2" = (none, "h", none) ∧
    parse_template_name "template.c_multi.h.j2" = (some "c", "h", none) ∧
    parse_template_name "template.sv_multi.sv.2.j2" = (some "sv", "sv", some "2") ∧
    parse_template_name "readme.txt" = (none, "", none) := by
  refine ⟨?_, ?_, ?_, ?_⟩ <;> decide

end Embgen
